import Mathlib

/-!
Shallow embedding of the SCI cast-animation compositor (`GfxAnimate`) from the
repository source.  Pure data is modelled directly; the mutable collaborators
(the script object store, the segment manager's node table, the paint/screen
layer) are modelled as explicit state threaded through the functions, with the
side-effecting paint calls recorded as an ordered trace of operations.
Machine `int16` values are modelled as `Int`, with explicit wrapping
(`toInt16`) at the assignments where overflow matters.
-/

namespace SciAnim

/-- Screen rectangle (`Common::Rect`): `left`/`top` inclusive, `right`/`bottom` exclusive. -/
structure Rect where
  left : Int
  top : Int
  right : Int
  bottom : Int
deriving DecidableEq, Repr

/-- `Common::Rect::isEmpty`. -/
def Rect.isEmpty (r : Rect) : Bool := r.left ≥ r.right || r.top ≥ r.bottom

/-- `Common::Rect::clip(r)` — clamp each edge of `a` into `r`. -/
def Rect.clipTo (a r : Rect) : Rect :=
  { top := if a.top < r.top then r.top else if a.top > r.bottom then r.bottom else a.top
    left := if a.left < r.left then r.left else if a.left > r.right then r.right else a.left
    bottom := if a.bottom > r.bottom then r.bottom else if a.bottom < r.top then r.top else a.bottom
    right := if a.right > r.right then r.right else if a.right < r.left then r.left else a.right }

/-- `Common::Rect::extend(r)` — bounding union. -/
def Rect.extendTo (a r : Rect) : Rect :=
  { left := min a.left r.left, right := max a.right r.right,
    top := min a.top r.top, bottom := max a.bottom r.bottom }

/-- `CLIP<int16>(v, lo, hi)` from common/util.h. -/
def clipInt (v lo hi : Int) : Int := if v < lo then lo else if v > hi then hi else v

/-- Reinterpret an integer as a signed 16-bit value (two's-complement wrap). -/
def toInt16 (x : Int) : Int := (x + 32768) % 65536 - 32768

/-- The `signal` selector is a `uint16` bitmask; we model it as a record with one
Boolean field per named bit this code manipulates (`kSignalStopUpdate` = 0x0001,
`kSignalViewUpdated` = 0x0002, `kSignalNoUpdate` = 0x0004, `kSignalHidden` = 0x0008,
`kSignalFixedPriority` = 0x0010, `kSignalAlwaysUpdate` = 0x0020, `kSignalForceUpdate`
= 0x0040, `kSignalRemoveView` = 0x0080, `kSignalFrozen` = 0x0100, `kSignalIgnoreActor`
= 0x4000, `kSignalDisposeMe` = 0x8000). -/
structure Signal where
  stopUpdate : Bool := false
  viewUpdated : Bool := false
  noUpdate : Bool := false
  hidden : Bool := false
  fixedPriority : Bool := false
  alwaysUpdate : Bool := false
  forceUpdate : Bool := false
  removeView : Bool := false
  frozen : Bool := false
  ignoreActor : Bool := false
  disposeMe : Bool := false
deriving DecidableEq, Repr

/-- The `scaleSignal` selector bitmask (`kScaleSignalDoScaling` = 0x0001,
`kScaleSignalGlobalScaling` = 0x0002, `kScaleSignalHoyle4SpecialHandling` = 0x0004). -/
structure ScaleSignal where
  doScaling : Bool := false
  globalScaling : Bool := false
  hoyle4 : Bool := false
deriving DecidableEq, Repr

/-- `ScaleSignal` with no bits set (`scaleSignal = 0`). -/
def ScaleSignal.zero : ScaleSignal := {}

/-- Selector values of one script object, as read/written by the compositor. -/
structure ObjVars where
  view : Int := 0
  loop : Int := 0
  cel : Int := 0
  palette : Int := 0
  x : Int := 0
  y : Int := 0
  z : Int := 0
  priority : Int := 0
  signal : Signal := {}
  scaleSignal : ScaleSignal := {}
  scaleX : Int := 128
  scaleY : Int := 128
  maxScale : Int := 0
  vanishingY : Int := 0
  underBits : Nat := 0
  lsLeft : Int := 0
  lsTop : Int := 0
  lsRight : Int := 0
  lsBottom : Int := 0
  nsRect : Rect := ⟨0, 0, 0, 0⟩
deriving Repr

/-- One entry of the compositor's per-frame working list (`AnimateEntry`). -/
structure AnimateEntry where
  object : Nat
  castHandle : Nat := 0
  givenOrderNo : Nat := 0
  viewId : Int := 0
  loopNo : Int := 0
  celNo : Int := 0
  paletteNo : Int := 0
  x : Int := 0
  y : Int := 0
  z : Int := 0
  priority : Int := 0
  signal : Signal := {}
  scaleSignal : ScaleSignal := {}
  scaleX : Int := 128
  scaleY : Int := 128
  celRect : Rect := ⟨0, 0, 0, 0⟩
  showBitsFlag : Bool := false
deriving DecidableEq, Repr

/-- Screen masks for `bitsSave` (`GFX_SCREEN_MASK_VISUAL` = 1, `PRIORITY` = 2,
`CONTROL` = 4, `ALL` = 7). -/
def GFX_SCREEN_MASK_VISUAL : Nat := 1

def GFX_SCREEN_MASK_PRIORITY : Nat := 2

def GFX_SCREEN_MASK_CONTROL : Nat := 4

def GFX_SCREEN_MASK_ALL : Nat := 7

/-- One observable call into a collaborator (paint layer, ports, script VM, pumps),
recorded in order of occurrence. -/
inductive PaintOp where
  | drawCel (viewId loopNo celNo : Int) (rect : Rect) (priority paletteNo scaleX scaleY : Int)
  | bitsSave (rect : Rect) (mask : Nat) (handle : Nat)
  | bitsRestore (handle : Nat)
  | bitsFree (handle : Nat)
  | bitsShow (rect : Rect)
  | fillRect (rect : Rect) (mask : Nat)
  | doitCall (obj : Nat)
  | deleteCall (obj : Nat)
  | palVaryDelay
  | palVaryTick
  | beginPortUpd
  | endPortUpd
  | setPortPic
  | setPortBack
  | showPic
  | pumpScreen
deriving DecidableEq, Repr

/-- A node of the segment manager's list table (`Node`): object value + successor address. -/
structure GNode where
  value : Nat
  succ : Nat
deriving DecidableEq, Repr

/-- The mutable engine state visible to the compositor: the object store, the node
table, the list table, relevant VM globals, the screen/paint state, and the
compositor's own members (`_list`, `_lastCastData`). `nextHandle` numbers the
handles returned by `bitsSave` (0 plays the role of `NULL_REG`). -/
structure GState where
  objs : Nat → ObjVars
  nodes : Nat → Option GNode
  listFirst : Nat → Option Nat
  fastCastVar : Nat := 0
  abortFlag : Bool := false
  picNotValid : Nat := 0
  nextHandle : Nat := 1
  throttleTrigger : Bool := false
  alist : List AnimateEntry := []
  lastCast : List AnimateEntry := []
  ops : List PaintOp := []

/-- Update one object's selector block in the store. -/
def GState.updObj (s : GState) (o : Nat) (f : ObjVars → ObjVars) : GState :=
  { s with objs := Function.update s.objs o (f (s.objs o)) }

/-- Append one collaborator call to the trace. -/
def GState.emit (s : GState) (op : PaintOp) : GState :=
  { s with ops := s.ops ++ [op] }

/-- `GfxPaint16::bitsSave`: record the call and hand out a fresh handle. -/
def GState.bitsSave (s : GState) (r : Rect) (mask : Nat) : Nat × GState :=
  (s.nextHandle,
    { s with nextHandle := s.nextHandle + 1,
             ops := s.ops ++ [PaintOp.bitsSave r mask s.nextHandle] })

/-- A cached view resource (`GfxView`): counts, cel geometry and scalability. -/
structure ViewInfo where
  loopCount : Int
  celCount : Int → Int
  height : Int → Int → Int
  isScaleable : Bool
  getCelRect : Int → Int → Int → Int → Int → Rect
  getCelScaledRect : Int → Int → Int → Int → Int → Int → Int → Rect
  getCelSpecialHoyle4Rect : Int → Int → Int → Int → Int → Rect → Rect

/-- SCI interpreter versions, in the order of the `SciVersion` enum. -/
def SCI_VERSION_1_EGA_ONLY : Nat := 4

def SCI_VERSION_1_EARLY : Nat := 5

def SCI_VERSION_1_1 : Nat := 8

/-- Per-call immutable context: the view cache, ports geometry, game identity,
engine version, and the script callbacks invoked through `invokeSelector`. -/
structure Env where
  cache : Int → ViewInfo
  coordToPriority : Int → Int
  priorityToCoord : Int → Int
  portBottom : Int
  currentRoomObj : Nat
  fastCastEnabled : Bool
  isHoyle4 : Bool
  version : Nat
  doit : Nat → GState → GState
  deleteCb : Nat → GState → GState

/-! ## List builder and sorter (`GfxAnimate::makeSortedList`) -/

/-- Walk the node table from `addr` following `succ` links, collecting the object
values in traversal order. `fuel` bounds the walk (the table is finite but the
links are arbitrary). -/
def collectNodes (s : GState) : Nat → Nat → List Nat
  | _, 0 => []
  | addr, fuel + 1 =>
    match s.nodes addr with
    | none => []
    | some nd => nd.value :: collectNodes s nd.succ fuel

/-- Build one `AnimateEntry` from an object, as the fill loop of `makeSortedList`
does: read the selectors, number the entry with its traversal index, and read the
scaling selectors only from SCI1.1 on. -/
def makeListEntry (env : Env) (s : GState) (obj : Nat) (listNr : Nat) : AnimateEntry :=
  let v := s.objs obj
  { object := obj
    castHandle := 0
    givenOrderNo := listNr
    viewId := v.view
    loopNo := v.loop
    celNo := v.cel
    paletteNo := v.palette
    x := v.x
    y := v.y
    z := v.z
    priority := v.priority
    signal := v.signal
    scaleSignal :=
      if SCI_VERSION_1_1 ≤ env.version then v.scaleSignal else ScaleSignal.zero
    scaleX :=
      if SCI_VERSION_1_1 ≤ env.version ∧ v.scaleSignal.doScaling then v.scaleX else 128
    scaleY :=
      if SCI_VERSION_1_1 ≤ env.version ∧ v.scaleSignal.doScaling then v.scaleY else 128
    celRect := ⟨0, 0, 0, 0⟩
    showBitsFlag := false }

/-- The fill loop of `makeSortedList`: one entry per node in traversal order,
`givenOrderNo` counting up from `listNr`. -/
def buildEntries (env : Env) (s : GState) : List Nat → Nat → List AnimateEntry
  | [], _ => []
  | o :: rest, listNr => makeListEntry env s o listNr :: buildEntries env s rest (listNr + 1)

/-- The comparator handed to `Common::sort` (`sortHelper`): ascending `y`, then
ascending `z`, then ascending `givenOrderNo`. -/
def sortHelper (entry1 entry2 : AnimateEntry) : Bool :=
  if entry1.y = entry2.y then
    if entry1.z = entry2.z then decide (entry1.givenOrderNo < entry2.givenOrderNo)
    else decide (entry1.z < entry2.z)
  else decide (entry1.y < entry2.y)

/-- The non-strict order induced by `sortHelper`: `a` need not come strictly before
`b`.  Because `sortHelper` is a strict total order on entries with distinct
`givenOrderNo`, any correct comparison sort (in particular `Common::sort`)
produces the unique list sorted by this relation. -/
def sortRel (a b : AnimateEntry) : Prop := sortHelper b a = false

instance : DecidableRel sortRel := fun a b => by unfold sortRel; infer_instance

/-- The three-level order of the specification, written out. -/
def animOrderLE (a b : AnimateEntry) : Prop :=
  a.y < b.y ∨ (a.y = b.y ∧ (a.z < b.z ∨ (a.z = b.z ∧ a.givenOrderNo ≤ b.givenOrderNo)))

/-- `GfxAnimate::makeSortedList`, as a pure function from the walked list: build
the entries in traversal order, then sort them with `sortHelper`.
`Common::sort` is unstable, but `sortHelper` is total on the built entries
(their `givenOrderNo` are pairwise distinct), so the result is the unique sorted
permutation; `List.insertionSort` computes exactly that. -/
def makeSortedList (env : Env) (s : GState) (first fuel : Nat) : List AnimateEntry :=
  List.insertionSort sortRel (buildEntries env s (collectNodes s first fuel) 0)

/-- `makeSortedList` as it acts on the compositor state: clears `_list` and
`_lastCastData`, then fills and sorts `_list`. -/
def makeSortedListS (env : Env) (s : GState) (first fuel : Nat) : GState :=
  { s with alist := makeSortedList env s first fuel, lastCast := [] }

/-! ## Geometry/scaling resolver -/

/-- `GfxAnimate::adjustInvalidCels`: clamp out-of-range loop and cel numbers.
A loop at or above the loop count resets to 0 and is written back to the object;
a negative loop resolves to `loopCount - 1` without write-back (the source
deliberately does not set the selector there).  The same rule is then applied to
the cel number against the cel count of the (possibly corrected) loop. -/
def adjustInvalidCels (view : ViewInfo) (s : GState) (e : AnimateEntry) :
    AnimateEntry × GState :=
  let viewLoopCount := view.loopCount
  let p1 : Int × GState :=
    if e.loopNo ≥ viewLoopCount then
      (0, s.updObj e.object (fun ov => { ov with loop := 0 }))
    else if e.loopNo < 0 then (viewLoopCount - 1, s)
    else (e.loopNo, s)
  let viewCelCount := view.celCount p1.1
  let p2 : Int × GState :=
    if e.celNo ≥ viewCelCount then
      (0, p1.2.updObj e.object (fun ov => { ov with cel := 0 }))
    else if e.celNo < 0 then (viewCelCount - 1, p1.2)
    else (e.celNo, p1.2)
  ({ e with loopNo := p1.1, celNo := p2.1 }, p2.2)

/-- `GfxAnimate::applyGlobalScaling`: perspective scaling from the room object's
vanishing point.  `>> 7` on an `int` is floor division by 128; C++ `/` on `int`
truncates toward zero (`Int.tdiv`); each assignment into an `int16` local or
field wraps (`toInt16`).  `error("global scaling panic")` is modelled as `none`. -/
def applyGlobalScaling (env : Env) (s : GState) (e : AnimateEntry) (view : ViewInfo) :
    Option (AnimateEntry × GState) :=
  let maxScale := (s.objs e.object).maxScale
  let celHeight := view.height e.loopNo e.celNo
  let maxCelHeight := toInt16 (Int.fdiv (maxScale * celHeight) 128)
  let vanishingY := (s.objs env.currentRoomObj).vanishingY
  let fixedPortY := toInt16 (env.portBottom - vanishingY)
  let fixedEntryY0 := toInt16 (e.y - vanishingY)
  let fixedEntryY := if fixedEntryY0 = 0 then 1 else fixedEntryY0
  if celHeight = 0 ∨ fixedPortY = 0 then none
  else
    let scaleY1 := toInt16 (Int.tdiv (maxCelHeight * fixedEntryY) fixedPortY)
    let scaleY := toInt16 (Int.tdiv (scaleY1 * 128) celHeight)
    some ({ e with scaleX := scaleY, scaleY := scaleY },
      s.updObj e.object (fun ov => { ov with scaleX := scaleY, scaleY := scaleY }))

/-- `GfxAnimate::processViewScaling`: non-scaleable views force unity scale and a
zero scale-signal; otherwise global scaling applies when both scale-signal bits
request it. -/
def processViewScaling (env : Env) (view : ViewInfo) (s : GState) (e : AnimateEntry) :
    Option (AnimateEntry × GState) :=
  if ¬view.isScaleable then
    some ({ e with scaleSignal := ScaleSignal.zero, scaleX := 128, scaleY := 128 }, s)
  else if e.scaleSignal.doScaling ∧ e.scaleSignal.globalScaling then
    applyGlobalScaling env s e view
  else
    some (e, s)

/-- `GfxAnimate::setNsRect`: compute the cel's screen rectangle (scaled, plain, or
the Hoyle4 special path) and publish it to the object's tracked bounding box
unless suppressed. -/
def setNsRect (env : Env) (view : ViewInfo) (s : GState) (e : AnimateEntry) :
    AnimateEntry × GState :=
  if e.scaleSignal.doScaling then
    let e1 := { e with
      celRect := view.getCelScaledRect e.loopNo e.celNo e.x e.y e.z e.scaleX e.scaleY }
    if e1.signal.hidden ∧ ¬e1.signal.alwaysUpdate then (e1, s)
    else (e1, s.updObj e1.object (fun ov => { ov with nsRect := e1.celRect }))
  else if env.isHoyle4 ∧ e.scaleSignal.hoyle4 then
    let e1 := { e with
      celRect := view.getCelSpecialHoyle4Rect e.loopNo e.celNo e.x e.y e.z
        ((s.objs e.object).nsRect) }
    (e1, s)
  else
    let e1 := { e with celRect := view.getCelRect e.loopNo e.celNo e.x e.y e.z }
    (e1, s.updObj e1.object (fun ov => { ov with nsRect := e1.celRect }))

/-- Test fixture: a scaleable one-loop/one-cel view of cel height 40. -/
def viewH40 : ViewInfo :=
  { loopCount := 1
    celCount := fun _ => 1
    height := fun _ _ => 40
    isScaleable := true
    getCelRect := fun _ _ _ _ _ => ⟨0, 0, 0, 0⟩
    getCelScaledRect := fun _ _ _ _ _ _ _ => ⟨0, 0, 0, 0⟩
    getCelSpecialHoyle4Rect := fun _ _ _ _ _ r => r }

/-- Test fixture: object 1 has `maxScale` 128; object 5 (the room) has `vanishingY` 100. -/
def objsGS : Nat → ObjVars := fun o =>
  if o = 1 then { maxScale := 128 } else if o = 5 then { vanishingY := 100 } else {}

/-- Test fixture: state for the perspective-scaling round trip. -/
def stGS : GState :=
  { objs := objsGS, nodes := fun _ => none, listFirst := fun _ => none }

/-- Test fixture: environment with port bottom 200 and room object 5. -/
def envGS : Env :=
  { cache := fun _ => viewH40
    coordToPriority := fun _ => 0
    priorityToCoord := fun _ => 0
    portBottom := 200
    currentRoomObj := 5
    fastCastEnabled := false
    isHoyle4 := false
    version := SCI_VERSION_1_1
    doit := fun _ s => s
    deleteCb := fun _ s => s }

/-- Test fixture: the entry being scaled (object 1, y = 150). -/
def entGS : AnimateEntry := { object := 1, y := 150 }

/-! ## `GfxAnimate::fill` -/

/-- The literal flag combination under which `fill` bumps `old_picNotValid`. -/
def fillPicCount (sig : Signal) : Bool :=
  if sig.noUpdate then
    (sig.forceUpdate || sig.viewUpdated) || (sig.hidden && !sig.removeView)
      || (!sig.hidden && sig.removeView) || sig.alwaysUpdate
  else
    sig.stopUpdate || sig.alwaysUpdate

/-- `GfxAnimate::fill`: per entry, fetch the view, fix invalid loop/cel numbers,
process scaling, compute the cel rectangle, derive the priority from `y` unless
`kSignalFixedPriority`, bump the `old_picNotValid` byte for the dirty flag
combinations, and clear `kSignalStopUpdate` (NoUpdate entries) or
`kSignalForceUpdate` (others). -/
def fill (env : Env) : GState → Nat → List AnimateEntry →
    Option (List AnimateEntry × GState × Nat)
  | s, oldPic, [] => some ([], s, oldPic)
  | s, oldPic, e :: rest =>
    let view := env.cache e.viewId
    let a := adjustInvalidCels view s e
    match processViewScaling env view a.2 a.1 with
    | none => none
    | some pv =>
      let n := setNsRect env view pv.2 pv.1
      let pr :=
        if ¬n.1.signal.fixedPriority then
          ({ n.1 with priority := env.coordToPriority n.1.y },
            n.2.updObj n.1.object
              (fun ov => { ov with priority := env.coordToPriority n.1.y }))
        else n
      let oldPic1 := if fillPicCount pr.1.signal then (oldPic + 1) % 256 else oldPic
      let e1 :=
        if pr.1.signal.noUpdate then
          { pr.1 with signal := { pr.1.signal with stopUpdate := false } }
        else
          { pr.1 with signal := { pr.1.signal with forceUpdate := false } }
      match fill env pr.2 oldPic1 rest with
      | none => none
      | some r => some (e1 :: r.1, r.2.1, r.2.2)

/-! ## `GfxAnimate::update` — the four signal passes -/

/-- Pass 1 of `update`, one entry (iterated in reverse): NoUpdate entries restore
(`_picNotValid != 1`) or free (`_picNotValid == 1`) their saved background unless
RemoveView, zero their `underBits`, clear ForceUpdate, and drop
ViewUpdated/NoUpdate when ViewUpdated was set; StopUpdate-only entries switch to
NoUpdate. -/
def updPass1Step (s : GState) (e : AnimateEntry) : AnimateEntry × GState :=
  if e.signal.noUpdate then
    let p :=
      if ¬e.signal.removeView then
        let bitsHandle := (s.objs e.object).underBits
        let p1 :=
          if s.picNotValid ≠ 1 then
            ({ e with showBitsFlag := true }, s.emit (PaintOp.bitsRestore bitsHandle))
          else (e, s.emit (PaintOp.bitsFree bitsHandle))
        (p1.1, p1.2.updObj e.object (fun ov => { ov with underBits := 0 }))
      else (e, s)
    let sig1 := { p.1.signal with forceUpdate := false }
    let sig2 :=
      if sig1.viewUpdated then { sig1 with viewUpdated := false, noUpdate := false }
      else sig1
    ({ p.1 with signal := sig2 }, p.2)
  else if e.signal.stopUpdate then
    ({ e with signal := { e.signal with stopUpdate := false, noUpdate := true } }, s)
  else (e, s)

/-- Pass 2 of `update`, one entry: AlwaysUpdate entries draw their cel, mark
shown, clear StopUpdate/ViewUpdated/NoUpdate/ForceUpdate, and stencil the
priority strip at the bottom of the draw rectangle unless IgnoreActor. -/
def updPass2Step (env : Env) (s : GState) (e : AnimateEntry) : AnimateEntry × GState :=
  if e.signal.alwaysUpdate then
    let s1 := s.emit (PaintOp.drawCel e.viewId e.loopNo e.celNo e.celRect
      e.priority e.paletteNo e.scaleX e.scaleY)
    let e1 := { e with
      showBitsFlag := true
      signal := { e.signal with
        stopUpdate := false
        viewUpdated := false
        noUpdate := false
        forceUpdate := false } }
    if ¬e1.signal.ignoreActor then
      let rect := { e1.celRect with
        top := clipInt (env.priorityToCoord e1.priority - 1) e1.celRect.top
          (e1.celRect.bottom - 1) }
      (e1, s1.emit (PaintOp.fillRect rect GFX_SCREEN_MASK_CONTROL))
    else (e1, s1)
  else (e, s)

/-- Pass 3 of `update`, one entry: NoUpdate entries either mark RemoveView (when
Hidden) or clear RemoveView and save their background (visual+priority planes
when IgnoreActor, else all planes), storing the handle in `underBits`. -/
def updPass3Step (s : GState) (e : AnimateEntry) : AnimateEntry × GState :=
  if e.signal.noUpdate then
    if e.signal.hidden then
      ({ e with signal := { e.signal with removeView := true } }, s)
    else
      let e1 := { e with signal := { e.signal with removeView := false } }
      let mask :=
        if e1.signal.ignoreActor then GFX_SCREEN_MASK_VISUAL ||| GFX_SCREEN_MASK_PRIORITY
        else GFX_SCREEN_MASK_ALL
      let p := s.bitsSave e1.celRect mask
      (e1, p.2.updObj e1.object (fun ov => { ov with underBits := p.1 }))
  else (e, s)

/-- Pass 4 of `update`, one entry: NoUpdate entries that are not Hidden draw
their cel, mark shown, and stencil the priority strip unless IgnoreActor. -/
def updPass4Step (env : Env) (s : GState) (e : AnimateEntry) : AnimateEntry × GState :=
  if e.signal.noUpdate ∧ ¬e.signal.hidden then
    let s1 := s.emit (PaintOp.drawCel e.viewId e.loopNo e.celNo e.celRect
      e.priority e.paletteNo e.scaleX e.scaleY)
    let e1 := { e with showBitsFlag := true }
    if ¬e1.signal.ignoreActor then
      let rect := { e1.celRect with
        top := clipInt (env.priorityToCoord e1.priority - 1) e1.celRect.top
          (e1.celRect.bottom - 1) }
      (e1, s1.emit (PaintOp.fillRect rect GFX_SCREEN_MASK_CONTROL))
    else (e1, s1)
  else (e, s)

/-- Iterate a per-entry step over the working list, threading the engine state
(the C++ loops mutate the entries in place; we rebuild the list). -/
def passFold (f : GState → AnimateEntry → AnimateEntry × GState) :
    GState → List AnimateEntry → List AnimateEntry × GState
  | s, [] => ([], s)
  | s, e :: rest =>
    let p := f s e
    let r := passFold f p.2 rest
    (p.1 :: r.1, r.2)

/-- Pass 1 iterates from `reverse_begin()` back to the front. -/
def updPass1 (s : GState) (l : List AnimateEntry) : List AnimateEntry × GState :=
  let r := passFold updPass1Step s l.reverse
  (r.1.reverse, r.2)

def updPass2 (env : Env) (s : GState) (l : List AnimateEntry) :
    List AnimateEntry × GState :=
  passFold (updPass2Step env) s l

def updPass3 (s : GState) (l : List AnimateEntry) : List AnimateEntry × GState :=
  passFold updPass3Step s l

def updPass4 (env : Env) (s : GState) (l : List AnimateEntry) :
    List AnimateEntry × GState :=
  passFold (updPass4Step env) s l

/-- `GfxAnimate::update`: the four passes in order over the sorted list. -/
def update (env : Env) (s : GState) (l : List AnimateEntry) :
    List AnimateEntry × GState :=
  let p1 := updPass1 s l
  let p2 := updPass2 env p1.2 p1.1
  let p3 := updPass3 p2.2 p2.1
  let p4 := updPass4 env p3.2 p3.1
  p4

/-- Counterexample fixture: a NoUpdate entry whose object holds background
handle 42. -/
def entRB : AnimateEntry := { object := 2, signal := { noUpdate := true } }

/-- Counterexample fixture: state with the screen marked invalid with the newer
severity (`_picNotValid = 2`). -/
def stRB : GState :=
  { objs := fun o => if o = 2 then { underBits := 42 } else {}
    nodes := fun _ => none
    listFirst := fun _ => none
    picNotValid := 2 }

/-- Fixture: entry with StopUpdate and AlwaysUpdate set and NoUpdate clear. -/
def entSA : AnimateEntry :=
  { object := 3, signal := { stopUpdate := true, alwaysUpdate := true } }

/-- Fixture: minimal state for the StopUpdate/AlwaysUpdate scenario. -/
def stSA : GState :=
  { objs := fun _ => {}, nodes := fun _ => none, listFirst := fun _ => none }

/-! ## `GfxAnimate::drawCels`, `updateScreen`, `restoreAndDelete`, `reAnimate` -/

/-- The loop of `GfxAnimate::drawCels`: every entry with none of
NoUpdate/Hidden/AlwaysUpdate saves its full background, stores the handle in
`underBits`, draws its cel, marks shown, clears RemoveView, and is retained as a
copy in `_lastCastData`. -/
def drawCelsGo : GState → List AnimateEntry → List AnimateEntry × GState
  | s, [] => ([], s)
  | s, e :: rest =>
    if ¬(e.signal.noUpdate ∨ e.signal.hidden ∨ e.signal.alwaysUpdate) then
      let p := s.bitsSave e.celRect GFX_SCREEN_MASK_ALL
      let s1 := p.2.updObj e.object (fun ov => { ov with underBits := p.1 })
      let s2 := s1.emit (PaintOp.drawCel e.viewId e.loopNo e.celNo e.celRect
        e.priority e.paletteNo e.scaleX e.scaleY)
      let e1 := { e with showBitsFlag := true }
      let e2 :=
        if e1.signal.removeView then
          { e1 with signal := { e1.signal with removeView := false } }
        else e1
      let s3 := { s2 with lastCast := s2.lastCast ++ [e2] }
      let r := drawCelsGo s3 rest
      (e2 :: r.1, r.2)
    else
      let r := drawCelsGo s rest
      (e :: r.1, r.2)

/-- `GfxAnimate::drawCels`: clears `_lastCastData`, then runs the draw loop. -/
def drawCels (s : GState) (l : List AnimateEntry) : List AnimateEntry × GState :=
  drawCelsGo { s with lastCast := [] } l

/-- One `updateScreen` entry: union or separately flush the previous (`ls`) and
new rectangles, update the `ls` selectors to the new rectangle, and mark
RemoveView on hidden entries for the next cycle. -/
def updateScreenStep (oldPic : Nat) (s : GState) (e : AnimateEntry) :
    AnimateEntry × GState :=
  if e.showBitsFlag
      ∨ ¬((e.signal.removeView ∨ e.signal.noUpdate)
          ∨ (¬e.signal.removeView ∧ e.signal.noUpdate ∧ oldPic ≠ 0)) then
    let v := s.objs e.object
    let lsRect : Rect := ⟨v.lsLeft, v.lsTop, v.lsRight, v.lsBottom⟩
    let clipped := Rect.clipTo lsRect e.celRect
    let p : Rect × GState :=
      if ¬clipped.isEmpty then (Rect.extendTo lsRect e.celRect, s)
      else (e.celRect, s.emit (PaintOp.bitsShow lsRect))
    let s1 := p.2.updObj e.object (fun ov => { ov with
      lsLeft := e.celRect.left
      lsTop := e.celRect.top
      lsRight := e.celRect.right
      lsBottom := e.celRect.bottom })
    let s2 := s1.emit (PaintOp.bitsShow p.1)
    let e1 :=
      if e.signal.hidden then { e with signal := { e.signal with removeView := true } }
      else e
    (e1, s2)
  else (e, s)

/-- `GfxAnimate::updateScreen` (forward iteration). -/
def updateScreen (oldPic : Nat) (s : GState) (l : List AnimateEntry) :
    List AnimateEntry × GState :=
  passFold (updateScreenStep oldPic) s l

/-- Forward pass of `restoreAndDelete`: write each entry's final signal bits
back to its object (done before the reverse pass so that `.delete_` side effects
on other objects' signals are not overwritten). -/
def writeSignalsPass : GState → List AnimateEntry → GState
  | s, [] => s
  | s, e :: rest =>
    writeSignalsPass (s.updObj e.object (fun ov => { ov with signal := e.signal })) rest

/-- One reverse-pass step of `restoreAndDelete`: re-read the object's signal
fresh, restore the background and clear `underBits` when both NoUpdate and
RemoveView are clear, then invoke the object's `delete_` behavior when DisposeMe
is set. -/
def restoreAndDeleteStep (env : Env) (t : GState) (e : AnimateEntry) : GState :=
  let sig := (t.objs e.object).signal
  let t1 :=
    if ¬sig.noUpdate ∧ ¬sig.removeView then
      ((t.emit (PaintOp.bitsRestore (t.objs e.object).underBits)).updObj e.object
        (fun ov => { ov with underBits := 0 }))
    else t
  if sig.disposeMe then env.deleteCb e.object (t1.emit (PaintOp.deleteCall e.object))
  else t1

/-- Reverse pass of `restoreAndDelete`, iterating an already-reversed list. -/
def rdRevPass (env : Env) : GState → List AnimateEntry → GState
  | t, [] => t
  | t, e :: rest => rdRevPass env (restoreAndDeleteStep env t e) rest

/-- `GfxAnimate::restoreAndDelete`: the forward signal write-back pass, then the
reverse restore/dispose pass with fresh signal reads. -/
def restoreAndDelete (env : Env) (s : GState) (l : List AnimateEntry) : GState :=
  rdRevPass env (writeSignalsPass s l) l.reverse

/-- Save-and-draw loop of `reAnimate`: saves each snapshot entry's background
over the visual and priority planes (assigning the handle to `castHandle`), then
draws its cel. -/
def reAnimateSave : GState → List AnimateEntry → List AnimateEntry × GState
  | s, [] => ([], s)
  | s, e :: rest =>
    let p := s.bitsSave e.celRect (GFX_SCREEN_MASK_VISUAL ||| GFX_SCREEN_MASK_PRIORITY)
    let s1 := p.2.emit (PaintOp.drawCel e.viewId e.loopNo e.celNo e.celRect
      e.priority e.paletteNo e.scaleX e.scaleY)
    let r := reAnimateSave s1 rest
    ({ e with castHandle := p.1 } :: r.1, r.2)

/-- `GfxAnimate::reAnimate`: with a non-empty retained snapshot, save + draw each
entry in order, flush the rectangle, then restore the saved backgrounds walking
the snapshot from its end back to its start; with an empty snapshot, just flush
the rectangle. -/
def reAnimate (s : GState) (rect : Rect) : GState :=
  if s.lastCast = [] then s.emit (PaintOp.bitsShow rect)
  else
    let p := reAnimateSave s s.lastCast
    let s1 := { p.2 with lastCast := p.1 }
    let s2 := s1.emit (PaintOp.bitsShow rect)
    (p.1.reverse).foldl (fun t e => t.emit (PaintOp.bitsRestore e.castHandle)) s2

/-- The saves-and-draws that `reAnimate` performs for a snapshot, with handles
numbered from `h`. -/
def reAnimateSaveOps (h : Nat) : List AnimateEntry → List PaintOp
  | [] => []
  | e :: rest =>
    PaintOp.bitsSave e.celRect (GFX_SCREEN_MASK_VISUAL ||| GFX_SCREEN_MASK_PRIORITY) h
      :: PaintOp.drawCel e.viewId e.loopNo e.celNo e.celRect e.priority e.paletteNo
          e.scaleX e.scaleY
      :: reAnimateSaveOps (h + 1) rest

/-- The snapshot entries with their `castHandle` fields as assigned by the
save loop, numbered from `h`. -/
def reAnimateAssign (h : Nat) : List AnimateEntry → List AnimateEntry
  | [] => []
  | e :: rest => { e with castHandle := h } :: reAnimateAssign (h + 1) rest

/-- Recognizer for screen flushes in the trace. -/
def isBitsShow : PaintOp → Bool
  | PaintOp.bitsShow _ => true
  | _ => false

/-- The trace segment the reverse pass of `restoreAndDelete` produces for one
entry, reading backgrounds from state `t`: the restore (when the fresh signal
lacks NoUpdate and RemoveView) strictly precedes the disposal (when DisposeMe is
set). -/
def rdSeg (t : GState) (e : AnimateEntry) : List PaintOp :=
  (if ¬e.signal.noUpdate ∧ ¬e.signal.removeView
    then [PaintOp.bitsRestore ((t.objs e.object).underBits)] else [])
  ++ (if e.signal.disposeMe then [PaintOp.deleteCall e.object] else [])

/-- Concatenation of per-entry reverse-pass segments, in processing order. -/
def rdSegs (t : GState) : List AnimateEntry → List PaintOp
  | [] => []
  | e :: rest => rdSeg t e ++ rdSegs t rest

/-- Sibling-mutation fixture: entry A (object 1) whose own final signal does not
request disposal. -/
def entSibA : AnimateEntry := { object := 1, signal := { noUpdate := true } }

/-- Sibling-mutation fixture: entry B (object 2) requesting disposal. -/
def entSibB : AnimateEntry :=
  { object := 2, signal := { noUpdate := true, disposeMe := true } }

/-- Sibling-mutation fixture: initial state. -/
def stSib : GState :=
  { objs := fun _ => {}, nodes := fun _ => none, listFirst := fun _ => none }

/-- Sibling-mutation fixture: a `delete_` callback on object 2 that sets object
1's DisposeMe bit. -/
def envSib : Env :=
  { envGS with deleteCb := fun o t =>
      if o = 2 then
        t.updObj 1 (fun ov => { ov with signal := { ov.signal with disposeMe := true } })
      else t }

/-! ## `GfxAnimate::invoke` and `GfxAnimate::kernelAnimate` -/

/-- `GfxAnimate::invoke`: walk the cast list calling each non-frozen object's
`doit` method.  Returns `false` (the caller then aborts the whole `kAnimate`)
when fast-cast support is enabled and the fast-cast global is non-null while a
node is being processed; returns `true` otherwise — including when a script
abort is detected after a `doit` (only the walk stops) and when the current node
becomes unreachable after its `doit` (natural end of the walk).  `fuel` bounds
the walk; `none` means fuel ran out. -/
def invoke (env : Env) : Nat → Nat → GState → Option (Bool × GState)
  | 0, _, _ => none
  | fuel + 1, addr, s =>
    match s.nodes addr with
    | none => some (true, s)
    | some nd =>
      if env.fastCastEnabled ∧ s.fastCastVar ≠ 0 then some (false, s)
      else
        if ¬(s.objs nd.value).signal.frozen then
          let s1 := env.doit nd.value (s.emit (PaintOp.doitCall nd.value))
          if s1.abortFlag then some (true, s1)
          else
            match s1.nodes addr with
            | none => some (true, s1)
            | some nd1 => invoke env fuel nd1.succ s1
        else invoke env fuel nd.succ s

/-- Steps of `kernelAnimate` before the cast list is touched: the PalVary delay
when the screen is invalid, and the SCI1.1+ PalVary tick (both external
collaborators, recorded as trace events only). -/
def prePhase (env : Env) (s : GState) : GState :=
  let s1 := if s.picNotValid ≠ 0 then s.emit PaintOp.palVaryDelay else s
  if SCI_VERSION_1_1 ≤ env.version then s1.emit PaintOp.palVaryTick else s1

/-- Modelled from the spec: `animateShowPic` delegates to the external
transition collaborator, which flushes the full picture; afterwards the screen
is no longer marked invalid. -/
def animateShowPic (s : GState) : GState :=
  { s.emit PaintOp.showPic with picNotValid := 0 }

/-- The phases of `kernelAnimate` after the behavior-invocation step: set the
picture port, dispose the retained cast, rebuild and sort the working list,
`fill`, run the signal passes when `old_picNotValid` is set, draw the remaining
cels, show the picture if still invalid, reconcile the screen, restore/dispose,
pump the event manager's screen update, restore the port, and request
throttling. -/
def animateRest (env : Env) (fuel : Nat) (first : Nat) (oldPic0 : Nat)
    (s : GState) : Option GState :=
  let s1 := s.emit PaintOp.setPortPic
  let s2 := { s1 with lastCast := [] }
  let s3 := makeSortedListS env s2 first fuel
  match fill env s3 oldPic0 s3.alist with
  | none => none
  | some r =>
    let l1 := r.1
    let s4 := { r.2.1 with alist := l1 }
    let oldPic := r.2.2
    let p5 :=
      if oldPic ≠ 0 then
        let sB :=
          if SCI_VERSION_1_EGA_ONLY ≤ env.version then s4.emit PaintOp.beginPortUpd
          else s4
        let pu := update env sB l1
        let sE :=
          if SCI_VERSION_1_EGA_ONLY ≤ env.version then pu.2.emit PaintOp.endPortUpd
          else pu.2
        (pu.1, sE)
      else (l1, s4)
    let p6 := drawCels p5.2 p5.1
    let s7 := if p6.2.picNotValid ≠ 0 then animateShowPic p6.2 else p6.2
    let p8 := updateScreen oldPic s7 p6.1
    let s9 := restoreAndDelete env p8.2 p8.1
    let s10 := (s9.emit PaintOp.pumpScreen).emit PaintOp.setPortBack
    some { s10 with throttleTrigger := true }

/-- `GfxAnimate::kernelAnimate`: the public per-tick entry point. -/
def kernelAnimate (env : Env) (fuel : Nat) (listReference : Nat) (cycle : Bool)
    (s0 : GState) : Option GState :=
  let s := prePhase env s0
  let oldPic0 := s.picNotValid
  if listReference = 0 then
    let s1 := { s with lastCast := [] }
    some (if s1.picNotValid ≠ 0 then animateShowPic s1 else s1)
  else
    match s.listFirst listReference with
    | none => none
    | some first =>
      if cycle then
        match invoke env fuel first s with
        | none => none
        | some (false, s') => some s'
        | some (true, s') =>
          match s'.listFirst listReference with
          | none => none
          | some first' => animateRest env fuel first' oldPic0 s'
      else animateRest env fuel first oldPic0 s

/-- Fixture: a two-node cast list (objects 1 and 2) reachable from list
reference 7 via node addresses 10 and 11, fast-cast global non-null. -/
def stFC : GState :=
  { objs := fun _ => {}
    nodes := fun a => if a = 10 then some ⟨1, 11⟩ else none
    listFirst := fun r => if r = 7 then some 10 else none
    fastCastVar := 5 }

/-- Fixture: environment with fast-cast support enabled. -/
def envFC : Env := { envGS with fastCastEnabled := true }

/-- Recognizer for behavior (`doit`) invocations in the trace. -/
def isDoitCall : PaintOp → Bool
  | PaintOp.doitCall _ => true
  | _ => false

/-- Fixture: node table for the abort scenario — list reference 7 points at node
10 (object 1), whose successor node 11 holds object 2. -/
def stAB : GState :=
  { objs := fun _ => {}
    nodes := fun a => if a = 10 then some ⟨1, 11⟩ else if a = 11 then some ⟨2, 12⟩ else none
    listFirst := fun r => if r = 7 then some 10 else none }

/-- Fixture: environment whose `doit` on object 1 sets the external abort flag
(as a save-game load interrupting mid-frame does). -/
def envAB : Env :=
  { envGS with doit := fun o t => if o = 1 then { t with abortFlag := true } else t }

/-- Fixture: the state `invoke` hands back in the abort scenario — object 1's
`doit` has run (with its trace event) and set the abort flag. -/
def stAB' : GState := envAB.doit 1 ((prePhase envAB stAB).emit (PaintOp.doitCall 1))

/-! ## Theorems -/

theorem sortRel_iff (a b : AnimateEntry) : sortRel a b ↔ animOrderLE a b := by
  unfold sortRel sortHelper animOrderLE
  by_cases hy : b.y = a.y <;> by_cases hz : b.z = a.z <;> simp [hy, hz] <;> omega

instance : IsTotal AnimateEntry sortRel := by
  constructor
  intro a b
  rw [sortRel_iff, sortRel_iff]
  unfold animOrderLE
  omega

instance : IsTrans AnimateEntry sortRel := by
  constructor
  intro a b c hab hbc
  rw [sortRel_iff] at *
  unfold animOrderLE at *
  omega

theorem buildEntries_map_givenOrderNo (env : Env) (s : GState) :
    ∀ (objs : List Nat) (n : Nat),
      (buildEntries env s objs n).map AnimateEntry.givenOrderNo = List.range' n objs.length := by
  intro objs
  induction objs with
  | nil => intro n; simp [buildEntries]
  | cons o rest ih =>
    intro n
    simp [buildEntries, makeListEntry, List.range', ih]

/-- C1: `makeSortedList` produces a permutation of the traversal-order entries
(size preserved, nothing dropped or duplicated), pairwise ordered by the single
three-level comparator (ascending `y`, then ascending `z`, then ascending
`givenOrderNo`), and the built entries carry their 0-based traversal index as
`givenOrderNo` — so entries with equal `(y, z)` appear in the output in their
original traversal order. -/
theorem makeSortedList_spec (env : Env) (s : GState) (first fuel : Nat) :
    (makeSortedList env s first fuel).Perm
        (buildEntries env s (collectNodes s first fuel) 0)
    ∧ List.Pairwise animOrderLE (makeSortedList env s first fuel)
    ∧ (buildEntries env s (collectNodes s first fuel) 0).map AnimateEntry.givenOrderNo
        = List.range (collectNodes s first fuel).length := by
  refine ⟨List.perm_insertionSort sortRel _, ?_, ?_⟩
  · have h := List.sorted_insertionSort sortRel
      (buildEntries env s (collectNodes s first fuel) 0)
    exact h.imp (fun hab => (sortRel_iff _ _).mp hab)
  · rw [buildEntries_map_givenOrderNo, List.range_eq_range']

/-- C4: `adjustInvalidCels` resolves `loopNo ≥ loopCount` to 0 with write-back to
the object's `loop` selector, a negative `loopNo` to `loopCount - 1` without
write-back, leaves an in-range `loopNo` alone, and then applies the identical
rule to `celNo` against the cel count of the already-corrected loop. -/
theorem adjustInvalidCels_spec (view : ViewInfo) (s : GState) (e : AnimateEntry) :
    (adjustInvalidCels view s e).1.loopNo
        = (if e.loopNo ≥ view.loopCount then 0
           else if e.loopNo < 0 then view.loopCount - 1 else e.loopNo)
    ∧ (adjustInvalidCels view s e).1.celNo
        = (if e.celNo ≥ view.celCount (if e.loopNo ≥ view.loopCount then 0
              else if e.loopNo < 0 then view.loopCount - 1 else e.loopNo) then 0
           else if e.celNo < 0 then
             view.celCount (if e.loopNo ≥ view.loopCount then 0
               else if e.loopNo < 0 then view.loopCount - 1 else e.loopNo) - 1
           else e.celNo)
    ∧ ((adjustInvalidCels view s e).2.objs e.object).loop
        = (if e.loopNo ≥ view.loopCount then 0 else (s.objs e.object).loop)
    ∧ ((adjustInvalidCels view s e).2.objs e.object).cel
        = (if e.celNo ≥ view.celCount (if e.loopNo ≥ view.loopCount then 0
              else if e.loopNo < 0 then view.loopCount - 1 else e.loopNo) then 0
           else (s.objs e.object).cel) := by
  simp only [adjustInvalidCels, GState.updObj]
  split_ifs <;> simp_all [Function.update]

theorem toInt16_eq_self {x : Int} (h1 : -32768 ≤ x) (h2 : x < 32768) : toInt16 x = x := by
  unfold toInt16
  omega

/-- C5: when scaling is requested with both `DoScaling` and `GlobalScaling` on a
scaleable view, `processViewScaling` runs `applyGlobalScaling`, which (i) under
bounds that keep every 16-bit intermediate in range and every quantity
nonnegative, sets `scaleY = floor(floor(maxCelHeight * fixedEntryY / fixedPortY)
* 128 / celHeight)` with `maxCelHeight = floor(maxScale * celHeight / 128)`,
`fixedPortY = portBottom - vanishingY`, `fixedEntryY = y - vanishingY` (0
replaced by 1), sets `scaleX = scaleY`, and writes both back to the object; and
(ii) fails fatally (`none`) whenever `celHeight = 0` or `fixedPortY = 0`. -/
theorem applyGlobalScaling_spec :
    (∀ (env : Env) (s : GState) (e : AnimateEntry) (view : ViewInfo),
      view.isScaleable → e.scaleSignal.doScaling → e.scaleSignal.globalScaling →
        processViewScaling env view s e = applyGlobalScaling env s e view)
    ∧ (∀ (env : Env) (s : GState) (e : AnimateEntry) (view : ViewInfo),
        (view.height e.loopNo e.celNo = 0
          ∨ toInt16 (env.portBottom - (s.objs env.currentRoomObj).vanishingY) = 0) →
        applyGlobalScaling env s e view = none)
    ∧ (∀ (env : Env) (s : GState) (e : AnimateEntry) (view : ViewInfo),
        ∀ (maxScale celHeight vanishingY fixedPortY fixedEntryY : Int),
        maxScale = (s.objs e.object).maxScale →
        celHeight = view.height e.loopNo e.celNo →
        vanishingY = (s.objs env.currentRoomObj).vanishingY →
        fixedPortY = env.portBottom - vanishingY →
        fixedEntryY = (if e.y - vanishingY = 0 then 1 else e.y - vanishingY) →
        0 ≤ maxScale → 0 < celHeight → 0 < fixedPortY →
        0 < fixedEntryY → maxScale * celHeight < 128 * 32768 →
        fixedPortY < 32768 →
        -32768 ≤ e.y - vanishingY → e.y - vanishingY < 32768 →
        Int.fdiv (Int.fdiv (maxScale * celHeight) 128 * fixedEntryY) fixedPortY < 32768 →
        Int.fdiv (Int.fdiv (Int.fdiv (maxScale * celHeight) 128 * fixedEntryY) fixedPortY * 128)
            celHeight < 32768 →
        applyGlobalScaling env s e view
          = some ({ e with
                scaleX := Int.fdiv (Int.fdiv (Int.fdiv (maxScale * celHeight) 128 * fixedEntryY)
                    fixedPortY * 128) celHeight,
                scaleY := Int.fdiv (Int.fdiv (Int.fdiv (maxScale * celHeight) 128 * fixedEntryY)
                    fixedPortY * 128) celHeight },
              s.updObj e.object (fun ov => { ov with
                scaleX := Int.fdiv (Int.fdiv (Int.fdiv (maxScale * celHeight) 128 * fixedEntryY)
                    fixedPortY * 128) celHeight,
                scaleY := Int.fdiv (Int.fdiv (Int.fdiv (maxScale * celHeight) 128 * fixedEntryY)
                    fixedPortY * 128) celHeight }))) := by
  refine ⟨?_, ?_, ?_⟩
  · intro env s e view hsc hdo hgl
    simp [processViewScaling, hsc, hdo, hgl]
  · intro env s e view h
    unfold applyGlobalScaling
    rcases h with h | h <;> simp [h]
  · intro env s e view maxScale celHeight vanishingY fixedPortY fixedEntryY
      hms hch hv hfp hfe h1 h2 h3 h4 h5 h6 h7 h8 h9 h10
    have hmch0 : 0 ≤ Int.fdiv (maxScale * celHeight) 128 :=
      Int.fdiv_nonneg (by positivity) (by norm_num)
    have hmch1 : Int.fdiv (maxScale * celHeight) 128 < 32768 := by
      rw [Int.fdiv_eq_ediv _ (by norm_num : (0:Int) ≤ 128)]
      exact (Int.ediv_lt_iff_lt_mul (by norm_num)).mpr (by omega)
    have hfpw : toInt16 (env.portBottom - vanishingY) = fixedPortY := by
      rw [← hfp]; exact toInt16_eq_self (by omega) (by omega)
    have hfew : toInt16 (e.y - vanishingY) = e.y - vanishingY :=
      toInt16_eq_self h7 h8
    have hmchw : toInt16 (Int.fdiv (maxScale * celHeight) 128)
        = Int.fdiv (maxScale * celHeight) 128 :=
      toInt16_eq_self (by omega) (by omega)
    have hs1nn : 0 ≤ Int.fdiv (Int.fdiv (maxScale * celHeight) 128 * fixedEntryY) fixedPortY :=
      Int.fdiv_nonneg (by positivity) (by omega)
    have hs1t : Int.tdiv (Int.fdiv (maxScale * celHeight) 128 * fixedEntryY) fixedPortY
        = Int.fdiv (Int.fdiv (maxScale * celHeight) 128 * fixedEntryY) fixedPortY :=
      (Int.fdiv_eq_tdiv (by positivity) (by omega)).symm
    have hs1w : toInt16 (Int.fdiv (Int.fdiv (maxScale * celHeight) 128 * fixedEntryY) fixedPortY)
        = Int.fdiv (Int.fdiv (maxScale * celHeight) 128 * fixedEntryY) fixedPortY :=
      toInt16_eq_self (by omega) (by omega)
    have hs2nn : 0 ≤ Int.fdiv
        (Int.fdiv (Int.fdiv (maxScale * celHeight) 128 * fixedEntryY) fixedPortY * 128)
        celHeight :=
      Int.fdiv_nonneg (by positivity) (by omega)
    have hs2t : Int.tdiv
        (Int.fdiv (Int.fdiv (maxScale * celHeight) 128 * fixedEntryY) fixedPortY * 128)
        celHeight
        = Int.fdiv
          (Int.fdiv (Int.fdiv (maxScale * celHeight) 128 * fixedEntryY) fixedPortY * 128)
          celHeight :=
      (Int.fdiv_eq_tdiv (by positivity) (by omega)).symm
    have hs2w : toInt16 (Int.fdiv
        (Int.fdiv (Int.fdiv (maxScale * celHeight) 128 * fixedEntryY) fixedPortY * 128)
        celHeight)
        = Int.fdiv
          (Int.fdiv (Int.fdiv (maxScale * celHeight) 128 * fixedEntryY) fixedPortY * 128)
          celHeight :=
      toInt16_eq_self (by omega) (by omega)
    have hcond : ¬(celHeight = 0 ∨ fixedPortY = 0) := by omega
    unfold applyGlobalScaling
    simp only [← hms, ← hch, ← hv, hmchw, hfpw, hfew, ← hfe, hs1t, hs1w, hs2t, hs2w,
      if_neg hcond]

theorem applyGlobalScaling_spec_witness :
    applyGlobalScaling envGS stGS entGS viewH40
      = some ({ entGS with scaleX := 64, scaleY := 64 },
          stGS.updObj 1 (fun ov => { ov with scaleX := 64, scaleY := 64 })) := by
  have h := applyGlobalScaling_spec.2.2 envGS stGS entGS viewH40 128 40 100 100 50
    (by decide) (by decide) (by decide) (by decide) (by decide)
    (by decide) (by decide) (by decide) (by decide) (by decide)
    (by decide) (by decide) (by decide) (by decide) (by decide)
  have hv : Int.fdiv (Int.fdiv (Int.fdiv (128 * 40) 128 * 50) 100 * 128) 40 = 64 := by decide
  rw [h, hv]
  rfl

theorem adjustInvalidCels_signal (view : ViewInfo) (s : GState) (e : AnimateEntry) :
    (adjustInvalidCels view s e).1.signal = e.signal := by
  simp only [adjustInvalidCels]

theorem processViewScaling_signal (env : Env) (view : ViewInfo) (s : GState)
    (e : AnimateEntry) (p : AnimateEntry × GState)
    (h : processViewScaling env view s e = some p) : p.1.signal = e.signal := by
  simp only [processViewScaling, applyGlobalScaling] at h
  split_ifs at h
  all_goals injection h with h2
  all_goals subst h2
  all_goals rfl

theorem setNsRect_signal (env : Env) (view : ViewInfo) (s : GState) (e : AnimateEntry) :
    (setNsRect env view s e).1.signal = e.signal := by
  simp only [setNsRect]
  split_ifs <;> rfl

/-- C9: whenever `fill` completes, the `old_picNotValid` byte has been bumped
exactly once per entry whose signal satisfies the literal dirty-flag predicate
(NoUpdate with ForceUpdate/ViewUpdated, Hidden-without-RemoveView,
RemoveView-without-Hidden or AlwaysUpdate; otherwise StopUpdate or
AlwaysUpdate), and every entry's signal comes out with StopUpdate cleared if
NoUpdate was set, else with ForceUpdate cleared. -/
theorem fill_spec (env : Env) :
    ∀ (l : List AnimateEntry) (s : GState) (oldPic : Nat)
      (l' : List AnimateEntry) (s' : GState) (oldPic' : Nat),
      oldPic < 256 →
      fill env s oldPic l = some (l', s', oldPic') →
      oldPic' = (oldPic + l.countP (fun e => fillPicCount e.signal)) % 256
      ∧ l'.map (fun e => e.signal)
          = l.map (fun e =>
              if e.signal.noUpdate then { e.signal with stopUpdate := false }
              else { e.signal with forceUpdate := false }) := by
  intro l
  induction l with
  | nil =>
    intro s oldPic l' s' oldPic' hlt h
    simp only [fill, Option.some.injEq, Prod.mk.injEq] at h
    obtain ⟨h1, _, h3⟩ := h
    subst h1; subst h3
    constructor
    · simp only [List.countP_nil]
      omega
    · simp
  | cons e rest ih =>
    intro s oldPic l' s' oldPic' hlt h
    simp only [fill] at h
    split at h
    · exact absurd h (by simp)
    · rename_i pv hpv
      split at h
      · exact absurd h (by simp)
      · rename_i r hr
        simp only [Option.some.injEq, Prod.mk.injEq] at h
        obtain ⟨h1, _, h3⟩ := h
        have hsig : pv.1.signal = e.signal := by
          have := processViewScaling_signal env (env.cache e.viewId)
            (adjustInvalidCels (env.cache e.viewId) s e).2
            (adjustInvalidCels (env.cache e.viewId) s e).1 pv hpv
          rw [this, adjustInvalidCels_signal]
        set n := setNsRect env (env.cache e.viewId) pv.2 pv.1 with hn
        have hnsig : n.1.signal = e.signal := by
          rw [hn, setNsRect_signal, hsig]
        set pr :=
          if ¬n.1.signal.fixedPriority then
            ({ n.1 with priority := env.coordToPriority n.1.y },
              n.2.updObj n.1.object
                (fun ov => { ov with priority := env.coordToPriority n.1.y }))
          else n with hpr
        have hprsig : pr.1.signal = e.signal := by
          rw [hpr]
          split_ifs <;> simpa using hnsig
        have hlt1 : (if fillPicCount pr.1.signal then (oldPic + 1) % 256 else oldPic) < 256 := by
          split <;> omega
        have hih := ih pr.2 (if fillPicCount pr.1.signal then (oldPic + 1) % 256 else oldPic)
          r.1 r.2.1 r.2.2 hlt1 hr
        rw [hprsig] at hih
        refine ⟨?_, ?_⟩
        · rw [← h3, hih.1, List.countP_cons]
          by_cases hc : fillPicCount e.signal = true <;> simp only [hc] <;> simp <;> omega
        · rw [← h1, List.map_cons, hih.2, hprsig]
          by_cases hnu : e.signal.noUpdate = true <;> simp [hnu]

theorem fill_spec_witness :
    (0 : Nat) < 256
    ∧ ∃ r, fill envGS stGS 0 [entGS] = some r
        ∧ r.2.2 = (0 + List.countP (fun e => fillPicCount e.signal) [entGS]) % 256
        ∧ r.1.map (fun e => e.signal)
            = [entGS].map (fun e =>
                if e.signal.noUpdate then { e.signal with stopUpdate := false }
                else { e.signal with forceUpdate := false }) := by
  refine ⟨by norm_num, ?_⟩
  have hsome : (fill envGS stGS 0 [entGS]).isSome = true := by rfl
  rcases hr : fill envGS stGS 0 [entGS] with _ | r
  · rw [hr] at hsome
    simp at hsome
  · have h := fill_spec envGS [entGS] stGS 0 r.1 r.2.1 r.2.2 (by norm_num) (by rw [hr])
    exact ⟨r, rfl, h.1, h.2⟩

theorem passFold_map_entries (f : GState → AnimateEntry → AnimateEntry × GState) (s : GState)
    (hf : ∀ t a, t.picNotValid = s.picNotValid → (f t a).1 = (f s a).1)
    (hp : ∀ t a, (f t a).2.picNotValid = t.picNotValid) :
    ∀ (l : List AnimateEntry) (t : GState), t.picNotValid = s.picNotValid →
      (passFold f t l).1 = l.map (fun a => (f s a).1)
      ∧ (passFold f t l).2.picNotValid = s.picNotValid := by
  intro l
  induction l with
  | nil => intro t ht; simpa [passFold] using ht
  | cons e rest ih =>
    intro t ht
    have h1 := hf t e ht
    have h2 : (f t e).2.picNotValid = s.picNotValid := by rw [hp t e, ht]
    have h3 := ih (f t e).2 h2
    simp [passFold, h1, h3.1, h3.2]

theorem passFold_ops_mono (f : GState → AnimateEntry → AnimateEntry × GState)
    (hf : ∀ t a, ∃ u, (f t a).2.ops = t.ops ++ u) :
    ∀ (l : List AnimateEntry) (t : GState),
      ∃ u, (passFold f t l).2.ops = t.ops ++ u := by
  intro l
  induction l with
  | nil => intro t; exact ⟨[], by simp [passFold]⟩
  | cons e rest ih =>
    intro t
    obtain ⟨u1, hu1⟩ := hf t e
    obtain ⟨u2, hu2⟩ := ih (f t e).2
    exact ⟨u1 ++ u2, by simp only [passFold]; rw [hu2, hu1, List.append_assoc]⟩

theorem updPass1Step_ops (s : GState) (e : AnimateEntry) :
    ∃ u, (updPass1Step s e).2.ops = s.ops ++ u := by
  simp only [updPass1Step, GState.emit, GState.updObj]
  split_ifs <;>
    first
      | exact ⟨_, rfl⟩
      | exact ⟨[], (List.append_nil _).symm⟩
      | exact ⟨_, List.append_assoc _ _ _⟩

theorem updPass2Step_ops (env : Env) (s : GState) (e : AnimateEntry) :
    ∃ u, (updPass2Step env s e).2.ops = s.ops ++ u := by
  simp only [updPass2Step, GState.emit]
  split_ifs <;>
    first
      | exact ⟨_, rfl⟩
      | exact ⟨[], (List.append_nil _).symm⟩
      | exact ⟨_, List.append_assoc _ _ _⟩

theorem updPass3Step_ops (s : GState) (e : AnimateEntry) :
    ∃ u, (updPass3Step s e).2.ops = s.ops ++ u := by
  simp only [updPass3Step, GState.bitsSave, GState.updObj]
  split_ifs <;>
    first
      | exact ⟨_, rfl⟩
      | exact ⟨[], (List.append_nil _).symm⟩
      | exact ⟨_, List.append_assoc _ _ _⟩

theorem updPass4Step_ops (env : Env) (s : GState) (e : AnimateEntry) :
    ∃ u, (updPass4Step env s e).2.ops = s.ops ++ u := by
  simp only [updPass4Step, GState.emit]
  split_ifs <;>
    first
      | exact ⟨_, rfl⟩
      | exact ⟨[], (List.append_nil _).symm⟩
      | exact ⟨_, List.append_assoc _ _ _⟩

theorem updPass1Step_pnv (s : GState) (e : AnimateEntry) :
    (updPass1Step s e).2.picNotValid = s.picNotValid := by
  simp only [updPass1Step, GState.emit, GState.updObj]
  split_ifs <;> rfl

theorem updPass2Step_pnv (env : Env) (s : GState) (e : AnimateEntry) :
    (updPass2Step env s e).2.picNotValid = s.picNotValid := by
  simp only [updPass2Step, GState.emit]
  split_ifs <;> rfl

theorem updPass3Step_pnv (s : GState) (e : AnimateEntry) :
    (updPass3Step s e).2.picNotValid = s.picNotValid := by
  simp only [updPass3Step, GState.bitsSave, GState.updObj]
  split_ifs <;> rfl

theorem updPass4Step_pnv (env : Env) (s : GState) (e : AnimateEntry) :
    (updPass4Step env s e).2.picNotValid = s.picNotValid := by
  simp only [updPass4Step, GState.emit]
  split_ifs <;> rfl

theorem updPass1Step_entry (s t : GState) (e : AnimateEntry)
    (ht : t.picNotValid = s.picNotValid) :
    (updPass1Step t e).1 = (updPass1Step s e).1 := by
  simp only [updPass1Step, GState.emit, GState.updObj, ht]
  split_ifs <;> rfl

theorem updPass1_entries (s : GState) (l : List AnimateEntry) :
    (updPass1 s l).1 = l.map (fun a => (updPass1Step s a).1)
    ∧ (updPass1 s l).2.picNotValid = s.picNotValid := by
  have h := passFold_map_entries updPass1Step s
    (fun t a ht => updPass1Step_entry s t a ht)
    (fun t a => updPass1Step_pnv t a) l.reverse s rfl
  constructor
  · simp only [updPass1]
    rw [h.1, ← List.map_reverse, List.reverse_reverse]
  · exact h.2

theorem updPass1Step_objs_ne (s : GState) (e : AnimateEntry) (o : Nat)
    (ho : o ≠ e.object) : (updPass1Step s e).2.objs o = s.objs o := by
  simp only [updPass1Step, GState.emit, GState.updObj]
  split_ifs <;> simp [Function.update, ho]

theorem passFold_pass1_objs_not_mem :
    ∀ (m : List AnimateEntry) (t : GState) (o : Nat),
      o ∉ m.map AnimateEntry.object →
      (passFold updPass1Step t m).2.objs o = t.objs o := by
  intro m
  induction m with
  | nil => intro t o _; rfl
  | cons a rest ih =>
    intro t o ho
    simp only [List.map_cons, List.mem_cons, not_or] at ho
    simp only [passFold]
    rw [ih (updPass1Step t a).2 o ho.2, updPass1Step_objs_ne t a o ho.1]

theorem updPass1Step_self (t : GState) (e : AnimateEntry)
    (hnu : e.signal.noUpdate = true) (hrv : e.signal.removeView = false) :
    ((updPass1Step t e).2.objs e.object).underBits = 0
    ∧ (t.picNotValid ≠ 1 →
        PaintOp.bitsRestore (t.objs e.object).underBits ∈ (updPass1Step t e).2.ops)
    ∧ (t.picNotValid = 1 →
        PaintOp.bitsFree (t.objs e.object).underBits ∈ (updPass1Step t e).2.ops) := by
  simp only [updPass1Step, GState.emit, GState.updObj]
  split_ifs <;> simp_all [Function.update]

theorem pass1_fold_props :
    ∀ (m : List AnimateEntry) (t : GState),
      (m.map AnimateEntry.object).Nodup →
      ∀ e ∈ m, e.signal.noUpdate = true → e.signal.removeView = false →
        ((passFold updPass1Step t m).2.objs e.object).underBits = 0
        ∧ (t.picNotValid ≠ 1 →
            PaintOp.bitsRestore (t.objs e.object).underBits
              ∈ (passFold updPass1Step t m).2.ops)
        ∧ (t.picNotValid = 1 →
            PaintOp.bitsFree (t.objs e.object).underBits
              ∈ (passFold updPass1Step t m).2.ops) := by
  intro m
  induction m with
  | nil => intro t _ e he; exact absurd he (List.not_mem_nil e)
  | cons a rest ih =>
    intro t hnd e he hnu hrv
    simp only [List.map_cons, List.nodup_cons] at hnd
    simp only [passFold]
    rcases List.mem_cons.mp he with rfl | he
    · have hstep := updPass1Step_self t e hnu hrv
      have hobj : e.object ∉ rest.map AnimateEntry.object := hnd.1
      have huntouched := passFold_pass1_objs_not_mem rest (updPass1Step t e).2 e.object hobj
      obtain ⟨u, hu⟩ := passFold_ops_mono updPass1Step updPass1Step_ops rest (updPass1Step t e).2
      refine ⟨?_, ?_, ?_⟩
      · rw [huntouched]; exact hstep.1
      · intro hp
        rw [hu]
        exact List.mem_append_left _ (hstep.2.1 hp)
      · intro hp
        rw [hu]
        exact List.mem_append_left _ (hstep.2.2 hp)
    · have hne : e.object ≠ a.object := by
        intro hEq
        exact hnd.1 (hEq ▸ List.mem_map_of_mem AnimateEntry.object he)
      have hobjs : (updPass1Step t a).2.objs e.object = t.objs e.object :=
        updPass1Step_objs_ne t a e.object hne
      have hpnv := updPass1Step_pnv t a
      have hr := ih (updPass1Step t a).2 hnd.2 e he hnu hrv
      rw [hobjs, hpnv] at hr
      exact hr

theorem updPass1Step_signal_facts (s : GState) (e : AnimateEntry)
    (hnu : e.signal.noUpdate = true) :
    (updPass1Step s e).1.signal.forceUpdate = false
    ∧ (e.signal.viewUpdated = true →
        (updPass1Step s e).1.signal.viewUpdated = false
        ∧ (updPass1Step s e).1.signal.noUpdate = false) := by
  simp only [updPass1Step, GState.emit, GState.updObj]
  split_ifs <;> simp_all

/-- C3 (amended): in Pass 1 of `update` (reverse iteration), every entry with
NoUpdate set and RemoveView clear has its saved background restored to the
screen when `_picNotValid ≠ 1` and freed exactly when `_picNotValid = 1` (a
screen marked with the newer invalid severity 2 still restores), and its
`underBits` reference on the object is cleared to 0; every NoUpdate entry has
ForceUpdate cleared, and if ViewUpdated was set, both ViewUpdated and NoUpdate
are cleared. -/
theorem updPass1_spec (s : GState) (l : List AnimateEntry)
    (hnd : (l.map AnimateEntry.object).Nodup) :
    (updPass1 s l).1 = l.map (fun a => (updPass1Step s a).1)
    ∧ ∀ e ∈ l, e.signal.noUpdate = true →
        ((updPass1Step s e).1.signal.forceUpdate = false
          ∧ (e.signal.viewUpdated = true →
              (updPass1Step s e).1.signal.viewUpdated = false
              ∧ (updPass1Step s e).1.signal.noUpdate = false))
        ∧ (e.signal.removeView = false →
            ((updPass1 s l).2.objs e.object).underBits = 0
            ∧ (s.picNotValid ≠ 1 →
                PaintOp.bitsRestore (s.objs e.object).underBits ∈ (updPass1 s l).2.ops)
            ∧ (s.picNotValid = 1 →
                PaintOp.bitsFree (s.objs e.object).underBits ∈ (updPass1 s l).2.ops)) := by
  refine ⟨(updPass1_entries s l).1, ?_⟩
  intro e he hnu
  refine ⟨updPass1Step_signal_facts s e hnu, ?_⟩
  intro hrv
  have hnd' : (l.reverse.map AnimateEntry.object).Nodup := by
    rw [List.map_reverse]
    exact List.nodup_reverse.mpr hnd
  have h := pass1_fold_props l.reverse s hnd' e (List.mem_reverse.mpr he) hnu hrv
  simpa [updPass1] using h

/-- C3 counterexample: with the screen invalid (`_picNotValid = 2 ≠ 0`), Pass 1
restores the NoUpdate entry's saved background rather than freeing it, because
the code frees only when `_picNotValid = 1`. -/
theorem updPass1_restores_on_invalid_screen :
    stRB.picNotValid ≠ 0
    ∧ (updPass1 stRB [entRB]).2.ops = [PaintOp.bitsRestore 42]
    ∧ PaintOp.bitsFree 42 ∉ (updPass1 stRB [entRB]).2.ops := by
  refine ⟨by decide, by decide, by decide⟩

theorem updPass1_spec_witness :
    ([entRB].map AnimateEntry.object).Nodup
    ∧ entRB.signal.noUpdate = true
    ∧ entRB.signal.removeView = false
    ∧ ((updPass1 stRB [entRB]).2.objs entRB.object).underBits = 0
    ∧ PaintOp.bitsRestore (stRB.objs entRB.object).underBits
        ∈ (updPass1 stRB [entRB]).2.ops := by
  have hnd : ([entRB].map AnimateEntry.object).Nodup := by decide
  have h := updPass1_spec stRB [entRB] hnd
  have h2 := (h.2 entRB (List.mem_singleton.mpr rfl) (by decide)).2 (by decide)
  exact ⟨hnd, by decide, by decide, h2.1, h2.2.1 (by decide)⟩

theorem updPass2_entries (env : Env) (s : GState) (l : List AnimateEntry)
    (t : GState) (ht : t.picNotValid = s.picNotValid) :
    (updPass2 env t l).1 = l.map (fun a => (updPass2Step env s a).1)
    ∧ (updPass2 env t l).2.picNotValid = s.picNotValid :=
  passFold_map_entries (updPass2Step env) s
    (fun t' a _ => by
      simp only [updPass2Step, GState.emit]
      split_ifs <;> rfl)
    (updPass2Step_pnv env) l t ht

theorem updPass3_entries (s : GState) (l : List AnimateEntry)
    (t : GState) (ht : t.picNotValid = s.picNotValid) :
    (updPass3 t l).1 = l.map (fun a => (updPass3Step s a).1)
    ∧ (updPass3 t l).2.picNotValid = s.picNotValid :=
  passFold_map_entries updPass3Step s
    (fun t' a _ => by
      simp only [updPass3Step, GState.bitsSave, GState.updObj]
      split_ifs <;> rfl)
    updPass3Step_pnv l t ht

theorem updPass4_entries (env : Env) (s : GState) (l : List AnimateEntry)
    (t : GState) (ht : t.picNotValid = s.picNotValid) :
    (updPass4 env t l).1 = l.map (fun a => (updPass4Step env s a).1)
    ∧ (updPass4 env t l).2.picNotValid = s.picNotValid :=
  passFold_map_entries (updPass4Step env) s
    (fun t' a _ => by
      simp only [updPass4Step, GState.emit]
      split_ifs <;> rfl)
    (updPass4Step_pnv env) l t ht

theorem update_entries (env : Env) (s : GState) (l : List AnimateEntry) :
    (update env s l).1 = l.map (fun a =>
      (updPass4Step env s (updPass3Step s
        (updPass2Step env s (updPass1Step s a).1).1).1).1) := by
  have h1 := updPass1_entries s l
  have h2 := updPass2_entries env s (updPass1 s l).1 (updPass1 s l).2 h1.2
  have h3 := updPass3_entries s (updPass2 env (updPass1 s l).2 (updPass1 s l).1).1
    (updPass2 env (updPass1 s l).2 (updPass1 s l).1).2 h2.2
  have h4 := updPass4_entries env s
    (updPass3 (updPass2 env (updPass1 s l).2 (updPass1 s l).1).2
      (updPass2 env (updPass1 s l).2 (updPass1 s l).1).1).1
    (updPass3 (updPass2 env (updPass1 s l).2 (updPass1 s l).1).2
      (updPass2 env (updPass1 s l).2 (updPass1 s l).1).1).2 h3.2
  simp only [update]
  rw [h4.1, h3.1, h2.1, h1.1]
  simp [List.map_map, Function.comp]

theorem updPass2_mem (env : Env) :
    ∀ (l : List AnimateEntry) (t : GState) (e : AnimateEntry), e ∈ l →
      e.signal.alwaysUpdate = true →
      PaintOp.drawCel e.viewId e.loopNo e.celNo e.celRect e.priority e.paletteNo
          e.scaleX e.scaleY ∈ (updPass2 env t l).2.ops
      ∧ (e.signal.ignoreActor = false →
          PaintOp.fillRect
              { e.celRect with top := clipInt (env.priorityToCoord e.priority - 1) e.celRect.top (e.celRect.bottom - 1) } GFX_SCREEN_MASK_CONTROL
            ∈ (updPass2 env t l).2.ops) := by
  intro l
  induction l with
  | nil => intro t e he; exact absurd he (List.not_mem_nil e)
  | cons a rest ih =>
    intro t e he ha
    simp only [updPass2, passFold]
    rcases List.mem_cons.mp he with rfl | he
    · obtain ⟨u, hu⟩ := passFold_ops_mono (updPass2Step env) (updPass2Step_ops env)
        rest (updPass2Step env t e).2
      have hstep :
          PaintOp.drawCel e.viewId e.loopNo e.celNo e.celRect e.priority e.paletteNo
              e.scaleX e.scaleY ∈ (updPass2Step env t e).2.ops
          ∧ (e.signal.ignoreActor = false →
              PaintOp.fillRect
                  { e.celRect with top := clipInt (env.priorityToCoord e.priority - 1) e.celRect.top (e.celRect.bottom - 1) } GFX_SCREEN_MASK_CONTROL
                ∈ (updPass2Step env t e).2.ops) := by
        simp only [updPass2Step, GState.emit]
        split_ifs <;> simp_all
      constructor
      · rw [hu]
        exact List.mem_append_left _ hstep.1
      · intro hi
        rw [hu]
        exact List.mem_append_left _ (hstep.2 hi)
    · exact ih (updPass2Step env t a).2 e he ha

theorem update_ops_from_pass2 (env : Env) (s : GState) (l : List AnimateEntry)
    (op : PaintOp)
    (hop : op ∈ (updPass2 env (updPass1 s l).2 (updPass1 s l).1).2.ops) :
    op ∈ (update env s l).2.ops := by
  simp only [update, updPass3, updPass4]
  obtain ⟨u3, hu3⟩ := passFold_ops_mono updPass3Step updPass3Step_ops
    (updPass2 env (updPass1 s l).2 (updPass1 s l).1).1
    (updPass2 env (updPass1 s l).2 (updPass1 s l).1).2
  obtain ⟨u4, hu4⟩ := passFold_ops_mono (updPass4Step env) (updPass4Step_ops env)
    (passFold updPass3Step (updPass2 env (updPass1 s l).2 (updPass1 s l).1).2
      (updPass2 env (updPass1 s l).2 (updPass1 s l).1).1).1
    (passFold updPass3Step (updPass2 env (updPass1 s l).2 (updPass1 s l).1).2
      (updPass2 env (updPass1 s l).2 (updPass1 s l).1).1).2
  rw [hu4, hu3]
  exact List.mem_append_left _ (List.mem_append_left _ hop)

/-- C2: an entry starting with StopUpdate and AlwaysUpdate set and NoUpdate clear
has, after Pass 1 of `update`, StopUpdate cleared and NoUpdate set; Pass 2 then
draws its cel (the draw call is in the trace of the full `update`), marks it
shown, clears NoUpdate/StopUpdate/ViewUpdated/ForceUpdate, and — unless
IgnoreActor is set — stencils a priority-marker strip at the bottom of its draw
rectangle. -/
theorem update_stopAlways_spec (env : Env) (s : GState) (l : List AnimateEntry)
    (e : AnimateEntry) (he : e ∈ l)
    (hs : e.signal.stopUpdate = true) (ha : e.signal.alwaysUpdate = true)
    (hn : e.signal.noUpdate = false) :
    ((updPass1Step s e).1.signal.stopUpdate = false
      ∧ (updPass1Step s e).1.signal.noUpdate = true)
    ∧ ((updPass2Step env s (updPass1Step s e).1).1.signal.noUpdate = false
      ∧ (updPass2Step env s (updPass1Step s e).1).1.signal.stopUpdate = false
      ∧ (updPass2Step env s (updPass1Step s e).1).1.signal.viewUpdated = false
      ∧ (updPass2Step env s (updPass1Step s e).1).1.signal.forceUpdate = false
      ∧ (updPass2Step env s (updPass1Step s e).1).1.showBitsFlag = true)
    ∧ (update env s l).1 = l.map (fun a =>
        (updPass4Step env s (updPass3Step s
          (updPass2Step env s (updPass1Step s a).1).1).1).1)
    ∧ PaintOp.drawCel e.viewId e.loopNo e.celNo e.celRect e.priority e.paletteNo
        e.scaleX e.scaleY ∈ (update env s l).2.ops
    ∧ (e.signal.ignoreActor = false →
        PaintOp.fillRect
            { e.celRect with top := clipInt (env.priorityToCoord e.priority - 1) e.celRect.top (e.celRect.bottom - 1) } GFX_SCREEN_MASK_CONTROL
          ∈ (update env s l).2.ops) := by
  have hp1 : (updPass1Step s e).1
      = { e with signal := { e.signal with stopUpdate := false, noUpdate := true } } := by
    simp only [updPass1Step, hn, hs]
    simp
  have hmem1 : (updPass1Step s e).1 ∈ (updPass1 s l).1 := by
    rw [(updPass1_entries s l).1]
    exact List.mem_map_of_mem _ he
  have hau : (updPass1Step s e).1.signal.alwaysUpdate = true := by
    rw [hp1]
    simpa using ha
  have hmem2 := updPass2_mem env (updPass1 s l).1 (updPass1 s l).2
    (updPass1Step s e).1 hmem1 hau
  refine ⟨?_, ?_, update_entries env s l, ?_, ?_⟩
  · rw [hp1]
    exact ⟨rfl, rfl⟩
  · rw [hp1]
    simp only [updPass2Step]
    split_ifs <;> simp_all
  · rw [hp1] at hmem2
    exact update_ops_from_pass2 env s l _ hmem2.1
  · intro hi
    rw [hp1] at hmem2
    exact update_ops_from_pass2 env s l _ (hmem2.2 hi)

theorem update_stopAlways_witness :
    entSA ∈ [entSA]
    ∧ entSA.signal.stopUpdate = true
    ∧ entSA.signal.alwaysUpdate = true
    ∧ entSA.signal.noUpdate = false
    ∧ ((updPass1Step stSA entSA).1.signal.stopUpdate = false
        ∧ (updPass1Step stSA entSA).1.signal.noUpdate = true)
    ∧ PaintOp.drawCel entSA.viewId entSA.loopNo entSA.celNo entSA.celRect entSA.priority
        entSA.paletteNo entSA.scaleX entSA.scaleY ∈ (update envGS stSA [entSA]).2.ops := by
  have h := update_stopAlways_spec envGS stSA [entSA] entSA (List.mem_singleton.mpr rfl)
    (by decide) (by decide) (by decide)
  exact ⟨List.mem_singleton.mpr rfl, by decide, by decide, by decide, h.1, h.2.2.2.1⟩

theorem reAnimateSave_props :
    ∀ (m : List AnimateEntry) (t : GState),
      (reAnimateSave t m).2.ops = t.ops ++ reAnimateSaveOps t.nextHandle m
      ∧ (reAnimateSave t m).1 = reAnimateAssign t.nextHandle m
      ∧ (reAnimateSave t m).2.nextHandle = t.nextHandle + m.length
      ∧ (reAnimateSave t m).2.lastCast = t.lastCast := by
  intro m
  induction m with
  | nil =>
    intro t
    exact ⟨by simp [reAnimateSave, reAnimateSaveOps], rfl, rfl, rfl⟩
  | cons e rest ih =>
    intro t
    have h := ih ((t.bitsSave e.celRect
      (GFX_SCREEN_MASK_VISUAL ||| GFX_SCREEN_MASK_PRIORITY)).2.emit
        (PaintOp.drawCel e.viewId e.loopNo e.celNo e.celRect e.priority e.paletteNo
          e.scaleX e.scaleY))
    refine ⟨?_, ?_, ?_, ?_⟩
    · simp only [reAnimateSave, reAnimateSaveOps]
      rw [h.1]
      simp [GState.bitsSave, GState.emit]
    · simp only [reAnimateSave, reAnimateAssign]
      rw [h.2.1]
      simp [GState.bitsSave, GState.emit]
    · simp only [reAnimateSave]
      rw [h.2.2.1]
      simp [GState.bitsSave, GState.emit]
      omega
    · simp only [reAnimateSave]
      rw [h.2.2.2]
      simp [GState.bitsSave, GState.emit]

theorem restoreFold_ops (m : List AnimateEntry) (t : GState) :
    (m.foldl (fun u e => u.emit (PaintOp.bitsRestore e.castHandle)) t).ops
      = t.ops ++ m.map (fun e => PaintOp.bitsRestore e.castHandle) := by
  induction m generalizing t with
  | nil => simp
  | cons e rest ih =>
    simp only [List.foldl_cons, List.map_cons]
    rw [ih]
    simp [GState.emit]

theorem reAnimateSaveOps_no_show (h : Nat) (m : List AnimateEntry) :
    (reAnimateSaveOps h m).countP isBitsShow = 0 := by
  induction m generalizing h with
  | nil => rfl
  | cons e rest ih =>
    simp [reAnimateSaveOps, List.countP_cons, isBitsShow, ih]

/-- C7: `reAnimate` emits, in order: one background save over the visual and
priority planes followed by one cel draw per snapshot entry (handles numbered in
snapshot order), then exactly one flush of the given rectangle, then the
background restores in strict reverse (LIFO) order of saving; with an empty
snapshot both sides reduce to the single flush. -/
theorem reAnimate_spec (s : GState) (rect : Rect) :
    (reAnimate s rect).ops
      = s.ops ++ reAnimateSaveOps s.nextHandle s.lastCast ++ [PaintOp.bitsShow rect]
          ++ ((reAnimateAssign s.nextHandle s.lastCast).map
                (fun e => PaintOp.bitsRestore e.castHandle)).reverse
    ∧ (reAnimate s rect).ops.countP isBitsShow = s.ops.countP isBitsShow + 1 := by
  have hmain : (reAnimate s rect).ops
      = s.ops ++ reAnimateSaveOps s.nextHandle s.lastCast ++ [PaintOp.bitsShow rect]
          ++ ((reAnimateAssign s.nextHandle s.lastCast).map
                (fun e => PaintOp.bitsRestore e.castHandle)).reverse := by
    by_cases hempty : s.lastCast = []
    · simp [reAnimate, hempty, reAnimateSaveOps, reAnimateAssign, GState.emit]
    · have h := reAnimateSave_props s.lastCast s
      simp only [reAnimate, hempty, if_false]
      rw [restoreFold_ops]
      simp only [GState.emit]
      rw [h.1, h.2.1]
      simp [List.append_assoc]
  refine ⟨hmain, ?_⟩
  rw [hmain]
  simp [List.countP_append, List.countP_map, reAnimateSaveOps_no_show, isBitsShow,
    Function.comp]

theorem writeSignalsPass_objs_other :
    ∀ (l : List AnimateEntry) (t : GState) (o : Nat),
      o ∉ l.map AnimateEntry.object →
      (writeSignalsPass t l).objs o = t.objs o := by
  intro l
  induction l with
  | nil => intro t o _; rfl
  | cons a rest ih =>
    intro t o ho
    simp only [List.map_cons, List.mem_cons, not_or] at ho
    simp only [writeSignalsPass]
    rw [ih _ o ho.2]
    simp [GState.updObj, Function.update, ho.1]

theorem writeSignalsPass_signal :
    ∀ (l : List AnimateEntry) (t : GState),
      (l.map AnimateEntry.object).Nodup →
      ∀ e ∈ l, ((writeSignalsPass t l).objs e.object).signal = e.signal := by
  intro l
  induction l with
  | nil => intro t _ e he; exact absurd he (List.not_mem_nil e)
  | cons a rest ih =>
    intro t hnd e he
    simp only [List.map_cons, List.nodup_cons] at hnd
    simp only [writeSignalsPass]
    rcases List.mem_cons.mp he with rfl | he
    · rw [writeSignalsPass_objs_other rest
        (t.updObj e.object (fun ov => { ov with signal := e.signal })) e.object hnd.1]
      simp [GState.updObj, Function.update]
    · exact ih (t.updObj a.object (fun ov => { ov with signal := a.signal })) hnd.2 e he

theorem writeSignalsPass_underBits :
    ∀ (l : List AnimateEntry) (t : GState) (o : Nat),
      ((writeSignalsPass t l).objs o).underBits = (t.objs o).underBits := by
  intro l
  induction l with
  | nil => intro t o; rfl
  | cons a rest ih =>
    intro t o
    simp only [writeSignalsPass]
    rw [ih (t.updObj a.object (fun ov => { ov with signal := a.signal })) o]
    by_cases ho : o = a.object <;> simp [GState.updObj, Function.update, ho]

theorem writeSignalsPass_ops :
    ∀ (l : List AnimateEntry) (t : GState), (writeSignalsPass t l).ops = t.ops := by
  intro l
  induction l with
  | nil => intro t; rfl
  | cons a rest ih =>
    intro t
    simp only [writeSignalsPass]
    rw [ih (t.updObj a.object (fun ov => { ov with signal := a.signal }))]
    rfl

theorem restoreAndDeleteStep_ops (env : Env) (hcb : ∀ o u, env.deleteCb o u = u)
    (t : GState) (e : AnimateEntry) (hsig : (t.objs e.object).signal = e.signal) :
    (restoreAndDeleteStep env t e).ops = t.ops ++ rdSeg t e := by
  simp only [restoreAndDeleteStep, rdSeg, hsig, hcb, GState.emit, GState.updObj]
  split_ifs <;> simp

theorem restoreAndDeleteStep_objs_ne (env : Env) (hcb : ∀ o u, env.deleteCb o u = u)
    (t : GState) (e : AnimateEntry) (o : Nat) (ho : o ≠ e.object) :
    (restoreAndDeleteStep env t e).objs o = t.objs o := by
  simp only [restoreAndDeleteStep, GState.emit, GState.updObj, hcb]
  split_ifs <;> simp [Function.update, ho]

theorem rdSegs_congr (t u : GState) :
    ∀ (m : List AnimateEntry), (∀ e ∈ m, t.objs e.object = u.objs e.object) →
      rdSegs t m = rdSegs u m := by
  intro m
  induction m with
  | nil => intro _; rfl
  | cons a rest ih =>
    intro h
    simp only [rdSegs, rdSeg, h a (List.mem_cons_self a rest)]
    rw [ih (fun e he => h e (List.mem_cons_of_mem a he))]

theorem rdRevPass_trace (env : Env) (hcb : ∀ o u, env.deleteCb o u = u) :
    ∀ (m : List AnimateEntry) (t : GState),
      (m.map AnimateEntry.object).Nodup →
      (∀ e ∈ m, (t.objs e.object).signal = e.signal) →
      (rdRevPass env t m).ops = t.ops ++ rdSegs t m := by
  intro m
  induction m with
  | nil => intro t _ _; simp [rdRevPass, rdSegs]
  | cons a rest ih =>
    intro t hnd hsig
    simp only [List.map_cons, List.nodup_cons] at hnd
    simp only [rdRevPass, rdSegs]
    have hstep := restoreAndDeleteStep_ops env hcb t a (hsig a (List.mem_cons_self a rest))
    have hobjpres : ∀ e ∈ rest,
        (restoreAndDeleteStep env t a).objs e.object = t.objs e.object := by
      intro e he
      apply restoreAndDeleteStep_objs_ne env hcb t a
      intro hEq
      exact hnd.1 (hEq ▸ List.mem_map_of_mem AnimateEntry.object he)
    have hsig' : ∀ e ∈ rest,
        ((restoreAndDeleteStep env t a).objs e.object).signal = e.signal := by
      intro e he
      rw [hobjpres e he]
      exact hsig e (List.mem_cons_of_mem a he)
    have hsegs : rdSegs (restoreAndDeleteStep env t a) rest = rdSegs t rest :=
      rdSegs_congr _ _ rest hobjpres
    rw [ih (restoreAndDeleteStep env t a) hnd.2 hsig', hstep, hsegs, List.append_assoc]

/-- C6: `restoreAndDelete` first writes every entry's final signal bits back to
its object in the forward pass; then the reverse pass produces, per entry in
reverse list order, a restore of the object's saved background (reading the
handle untouched by the forward pass, and clearing `underBits`) exactly when the
re-read signal lacks both NoUpdate and RemoveView, followed — strictly after the
restore — by the object's disposal exactly when DisposeMe is set in the re-read
signal; and a sibling's signal bit mutated by a disposal callback earlier in the
same call is honored when that sibling is processed (object 1 is disposed
although its own entry never requested it). -/
theorem restoreAndDelete_spec (env : Env) (s : GState) (l : List AnimateEntry)
    (hnd : (l.map AnimateEntry.object).Nodup)
    (hcb : ∀ o u, env.deleteCb o u = u) :
    (∀ e ∈ l, ((writeSignalsPass s l).objs e.object).signal = e.signal)
    ∧ (restoreAndDelete env s l).ops
        = s.ops ++ rdSegs (writeSignalsPass s l) l.reverse
    ∧ (∀ e ∈ l, ((writeSignalsPass s l).objs e.object).underBits
        = (s.objs e.object).underBits)
    ∧ (entSibA.signal.disposeMe = false
        ∧ PaintOp.deleteCall 1 ∈ (restoreAndDelete envSib stSib [entSibA, entSibB]).ops) := by
  have hnd' : (l.reverse.map AnimateEntry.object).Nodup := by
    rw [List.map_reverse]
    exact List.nodup_reverse.mpr hnd
  have hsig := writeSignalsPass_signal l s hnd
  refine ⟨hsig, ?_, fun e he => writeSignalsPass_underBits l s e.object, by decide, by decide⟩
  have h := rdRevPass_trace env hcb l.reverse (writeSignalsPass s l) hnd'
    (fun e he => hsig e (List.mem_reverse.mp he))
  simp only [restoreAndDelete]
  rw [h, writeSignalsPass_ops l s]

theorem restoreAndDelete_spec_witness :
    (([entSibA, entSibB].map AnimateEntry.object).Nodup)
    ∧ (∀ o u, envGS.deleteCb o u = u)
    ∧ (restoreAndDelete envGS stSib [entSibA, entSibB]).ops
        = stSib.ops
            ++ rdSegs (writeSignalsPass stSib [entSibA, entSibB]) [entSibA, entSibB].reverse := by
  have h := restoreAndDelete_spec envGS stSib [entSibA, entSibB] (by decide) (fun o u => rfl)
  exact ⟨by decide, fun o u => rfl, h.2.1⟩

theorem prePhase_fields (env : Env) (s : GState) :
    (prePhase env s).objs = s.objs
    ∧ (prePhase env s).picNotValid = s.picNotValid
    ∧ (prePhase env s).alist = s.alist
    ∧ (prePhase env s).lastCast = s.lastCast
    ∧ (prePhase env s).nextHandle = s.nextHandle
    ∧ (prePhase env s).listFirst = s.listFirst
    ∧ (prePhase env s).nodes = s.nodes
    ∧ (prePhase env s).fastCastVar = s.fastCastVar := by
  simp only [prePhase, GState.emit]
  split_ifs <;> exact ⟨rfl, rfl, rfl, rfl, rfl, rfl, rfl, rfl⟩

/-- C10: with fast-cast support enabled and the fast-cast global non-null while
a node is processed, `invoke` returns `false` without calling any `doit` or
changing any state, and `kernelAnimate` then returns immediately with exactly
the state `invoke` returned: no list rebuild, sort, draw, screen reconciliation
or disposal happens, so the retained last-cast snapshot, the screen state, the
working list, and every object's selectors are unchanged by the remainder of the
call (the pre-invocation PalVary steps only append trace events). -/
theorem kernelAnimate_fastCast_spec :
    (∀ (env : Env) (fuel addr : Nat) (s : GState) (nd : GNode),
      s.nodes addr = some nd → env.fastCastEnabled = true → s.fastCastVar ≠ 0 →
      invoke env (fuel + 1) addr s = some (false, s))
    ∧ (∀ (env : Env) (fuel ref first : Nat) (s s' : GState),
        ref ≠ 0 →
        (prePhase env s).listFirst ref = some first →
        invoke env fuel first (prePhase env s) = some (false, s') →
        kernelAnimate env fuel ref true s = some s')
    ∧ (∀ (env : Env) (fuel ref first : Nat) (s : GState) (nd : GNode),
        ref ≠ 0 → env.fastCastEnabled = true → s.fastCastVar ≠ 0 →
        s.listFirst ref = some first →
        s.nodes first = some nd →
        kernelAnimate env (fuel + 1) ref true s = some (prePhase env s))
    ∧ (∀ (env : Env) (s : GState),
        (prePhase env s).objs = s.objs
        ∧ (prePhase env s).picNotValid = s.picNotValid
        ∧ (prePhase env s).alist = s.alist
        ∧ (prePhase env s).lastCast = s.lastCast) := by
  have hinv : ∀ (env : Env) (fuel addr : Nat) (s : GState) (nd : GNode),
      s.nodes addr = some nd → env.fastCastEnabled = true → s.fastCastVar ≠ 0 →
      invoke env (fuel + 1) addr s = some (false, s) := by
    intro env fuel addr s nd hnd hfc hvar
    simp only [invoke, hnd]
    simp [hfc, hvar]
  have hker : ∀ (env : Env) (fuel ref first : Nat) (s s' : GState),
      ref ≠ 0 →
      (prePhase env s).listFirst ref = some first →
      invoke env fuel first (prePhase env s) = some (false, s') →
      kernelAnimate env fuel ref true s = some s' := by
    intro env fuel ref first s s' hne hfirst hret
    simp only [kernelAnimate, if_neg hne, hfirst, hret]
    simp
  refine ⟨hinv, hker, ?_, fun env s => ⟨(prePhase_fields env s).1,
    (prePhase_fields env s).2.1, (prePhase_fields env s).2.2.1,
    (prePhase_fields env s).2.2.2.1⟩⟩
  intro env fuel ref first s nd hne hfc hvar hfirst hnd
  have hp := prePhase_fields env s
  apply hker env (fuel + 1) ref first s (prePhase env s) hne
  · rw [hp.2.2.2.2.2.1, hfirst]
  · apply hinv env fuel first (prePhase env s) nd
    · rw [hp.2.2.2.2.2.2.1, hnd]
    · exact hfc
    · rw [hp.2.2.2.2.2.2.2]
      exact hvar

theorem kernelAnimate_fastCast_witness :
    stFC.nodes 10 = some ⟨1, 11⟩
    ∧ envFC.fastCastEnabled = true
    ∧ stFC.fastCastVar ≠ 0
    ∧ invoke envFC 1 10 stFC = some (false, stFC)
    ∧ kernelAnimate envFC 1 7 true stFC = some (prePhase envFC stFC) := by
  refine ⟨by decide, by decide, by decide, ?_, ?_⟩
  · exact kernelAnimate_fastCast_spec.1 envFC 0 10 stFC ⟨1, 11⟩ (by decide) (by decide)
      (by decide)
  · exact kernelAnimate_fastCast_spec.2.2.1 envFC 0 7 10 stFC ⟨1, 11⟩ (by decide)
      (by decide) (by decide) (by decide) (by decide)

/-- C8 counterexample: object 1's `doit` sets the abort flag, the walk stops
(only one `doit` ever happens although the list has two objects), and yet the
whole animate call is NOT aborted — `kernelAnimate` runs every remaining phase
to completion and sets the throttle flag at its very end. -/
theorem kernelAnimate_abort_continues :
    (envAB.doit 1 (stAB.emit (PaintOp.doitCall 1))).abortFlag = true
    ∧ (kernelAnimate envAB 5 7 true stAB).map (fun t => t.throttleTrigger) = some true
    ∧ (kernelAnimate envAB 5 7 true stAB).map (fun t => t.abortFlag) = some true
    ∧ (kernelAnimate envAB 5 7 true stAB).map (fun t => t.ops.countP isDoitCall) = some 1 := by
  refine ⟨by decide, by decide, by decide, by decide⟩

/-- C8 (amended): when a `doit` sets the external abort flag, `invoke` stops the
walk right there and returns `true` with the remainder of the list unprocessed —
but the animate call itself is NOT aborted: `kernelAnimate` re-looks up the list
and continues with all remaining phases (`animateRest`), which always run to
the end (the throttle flag is set last); the fast-cast `false` return is the
only early exit out of `kernelAnimate` from the invocation step, and a node
becoming unreachable after its `doit` likewise terminates the walk with `true`,
without error. -/
theorem invoke_abort_spec :
    (∀ (env : Env) (fuel addr : Nat) (s : GState) (nd : GNode),
      s.nodes addr = some nd →
      ¬(env.fastCastEnabled = true ∧ s.fastCastVar ≠ 0) →
      (s.objs nd.value).signal.frozen = false →
      (env.doit nd.value (s.emit (PaintOp.doitCall nd.value))).abortFlag = true →
      invoke env (fuel + 1) addr s
        = some (true, env.doit nd.value (s.emit (PaintOp.doitCall nd.value))))
    ∧ (∀ (env : Env) (fuel addr : Nat) (s : GState) (nd : GNode),
        s.nodes addr = some nd →
        ¬(env.fastCastEnabled = true ∧ s.fastCastVar ≠ 0) →
        (s.objs nd.value).signal.frozen = false →
        (env.doit nd.value (s.emit (PaintOp.doitCall nd.value))).abortFlag = false →
        (env.doit nd.value (s.emit (PaintOp.doitCall nd.value))).nodes addr = none →
        invoke env (fuel + 1) addr s
          = some (true, env.doit nd.value (s.emit (PaintOp.doitCall nd.value))))
    ∧ (∀ (env : Env) (fuel ref first first' : Nat) (s s' : GState),
        ref ≠ 0 →
        (prePhase env s).listFirst ref = some first →
        invoke env fuel first (prePhase env s) = some (true, s') →
        s'.listFirst ref = some first' →
        kernelAnimate env fuel ref true s
          = animateRest env fuel first' (prePhase env s).picNotValid s')
    ∧ (∀ (env : Env) (fuel first oldPic : Nat) (s sF : GState),
        animateRest env fuel first oldPic s = some sF → sF.throttleTrigger = true) := by
  refine ⟨?_, ?_, ?_, ?_⟩
  · intro env fuel addr s nd hnd hfc hfz habort
    simp only [invoke, hnd]
    simp [hfc, hfz, habort]
  · intro env fuel addr s nd hnd hfc hfz habort hnone
    simp only [invoke, hnd]
    simp [hfc, hfz, habort, hnone]
  · intro env fuel ref first first' s s' hne hfirst hret hfirst'
    simp only [kernelAnimate, if_neg hne, hfirst, hret, hfirst']
    simp
  · intro env fuel first oldPic s sF h
    simp only [animateRest] at h
    split at h
    · simp at h
    · injection h with h2
      rw [← h2]

theorem invoke_abort_witness :
    stAB.nodes 10 = some ⟨1, 11⟩
    ∧ invoke envAB 5 10 (prePhase envAB stAB) = some (true, stAB')
    ∧ kernelAnimate envAB 5 7 true stAB
        = animateRest envAB 5 10 (prePhase envAB stAB).picNotValid stAB'
    ∧ (animateRest envAB 5 10 (prePhase envAB stAB).picNotValid stAB').map
        (fun t => t.throttleTrigger) = some true := by
  have hinv : invoke envAB 5 10 (prePhase envAB stAB) = some (true, stAB') :=
    invoke_abort_spec.1 envAB 4 10 (prePhase envAB stAB) ⟨1, 11⟩
      (by decide) (by decide) (by decide) (by decide)
  have hker := invoke_abort_spec.2.2.1 envAB 5 7 10 10 stAB stAB'
    (by decide) (by decide) hinv (by decide)
  refine ⟨by decide, hinv, hker, ?_⟩
  have hsome : (animateRest envAB 5 10 (prePhase envAB stAB).picNotValid stAB').isSome
      = true := by rfl
  rcases hr : animateRest envAB 5 10 (prePhase envAB stAB).picNotValid stAB' with _ | sF
  · rw [hr] at hsome
    simp at hsome
  · have := invoke_abort_spec.2.2.2 envAB 5 10 (prePhase envAB stAB).picNotValid stAB' sF hr
    simp [this]

end SciAnim
